import Mathlib

/-!
Shallow embedding of the System-Monitor core: the alert lifecycle engine
(`backend/internal/alerts`), the metrics collector (`backend/internal/metrics`)
and the log analyzer (`backend/internal/logs`).

Floating-point metric values are modelled as rationals (`ℚ`); the database is
modelled as an explicit list of records threaded through each operation, and
gorm UPDATE statements as maps over that list together with the affected row
count. Timestamps are abstract (`Nat`). Human-readable alert message strings
built with `fmt.Sprintf` are modelled as an inductive carrying exactly the
data the source interpolates into the string.
-/

namespace Monitor

/-- `MetricType` is a string in the Go source (`metrics.MetricType`). -/
abbrev MetricType := String

/-- `metrics.CPUUsage`. -/
def CPUUsage : MetricType := "cpu_usage"

/-- `metrics.MemoryUsage`. -/
def MemoryUsage : MetricType := "memory_usage"

/-- `alerts.AlertStatus` with constants `AlertActive` and `AlertResolved`. -/
inductive AlertStatus where
  | active
  | resolved
deriving DecidableEq, Repr

/-- `alerts.AlertSeverity` with its four constants. -/
inductive AlertSeverity where
  | low
  | medium
  | high
  | critical
deriving DecidableEq, Repr

/-- The message strings produced by `Service.generateAlertMessage`: one
constructor per `fmt.Sprintf` branch, carrying the interpolated data. -/
inductive AlertMessage where
  | highCpu (value threshold : ℚ)
  | highMemory (value threshold : ℚ)
  | generic (ty : MetricType) (value threshold : ℚ)
deriving DecidableEq, Repr

/-- `alerts.Alert` (gorm-managed `CreatedAt`/`UpdatedAt` columns omitted). -/
structure Alert where
  id : Nat
  type : MetricType
  message : AlertMessage
  value : ℚ
  threshold : ℚ
  severity : AlertSeverity
  status : AlertStatus
  triggeredAt : Nat
  resolvedAt : Option Nat
deriving DecidableEq, Repr

/-- `metrics.MetricThreshold` (timestamps omitted). -/
structure MetricThreshold where
  id : Nat
  type : MetricType
  threshold : ℚ
  enabled : Bool
deriving DecidableEq, Repr

/-- `metrics.SystemMetrics`. -/
structure SystemMetrics where
  cpuUsage : ℚ
  memoryUsage : ℚ
  timestamp : Nat
deriving DecidableEq, Repr

/-- The alert table plus the auto-increment id counter of the database. -/
structure ServiceState where
  alerts : List Alert
  nextId : Nat
deriving DecidableEq, Repr

/-- `Service.generateAlertMessage`. -/
def generateAlertMessage (metricType : MetricType) (value threshold : ℚ) : AlertMessage :=
  if metricType = CPUUsage then .highCpu value threshold
  else if metricType = MemoryUsage then .highMemory value threshold
  else .generic metricType value threshold

/-- `Service.calculateSeverity`: tiers on the percentage by which the value
exceeds the threshold. -/
def calculateSeverity (value threshold : ℚ) : AlertSeverity :=
  let exceedPercentage : ℚ := ((value - threshold) / threshold) * 100
  if exceedPercentage ≥ 50 then .critical
  else if exceedPercentage ≥ 25 then .high
  else if exceedPercentage ≥ 10 then .medium
  else .low

/-- The `switch threshold.Type` in `CheckThresholds` picking the current
reading; the `default: continue` branch is `none`. -/
def currentValueFor (ty : MetricType) (m : SystemMetrics) : Option ℚ :=
  if ty = CPUUsage then some m.cpuUsage
  else if ty = MemoryUsage then some m.memoryUsage
  else none

/-- Whether an alert row matches `metric_type = ? AND status = 'active'`. -/
def isActiveOfType (ty : MetricType) (a : Alert) : Bool :=
  a.type = ty ∧ a.status = .active

/-- The `First` query for an existing active alert of the given type. -/
def findActiveAlert (ty : MetricType) (alerts : List Alert) : Option Alert :=
  alerts.find? (isActiveOfType ty)

/-- Number of rows matching `metric_type = ? AND status = 'active'`. -/
def activeCount (ty : MetricType) (alerts : List Alert) : Nat :=
  (alerts.filter (isActiveOfType ty)).length

/-- Effect of the resolving UPDATE on one row. -/
def resolveRow (ty : MetricType) (now : Nat) (a : Alert) : Alert :=
  if isActiveOfType ty a then { a with status := .resolved, resolvedAt := some now } else a

/-- `Service.resolveActiveAlerts`: the UPDATE over all rows with
`metric_type = ? AND status = 'active'`, returning the new table and the
affected row count (`result.RowsAffected`). -/
def resolveActiveAlerts (ty : MetricType) (now : Nat) (alerts : List Alert) :
    List Alert × Nat :=
  (alerts.map (resolveRow ty now), activeCount ty alerts)

/-- The body of the `for _, threshold := range thresholds` loop in
`Service.CheckThresholds`, for one enabled threshold row. -/
def processThreshold (m : SystemMetrics) (now : Nat) (st : ServiceState)
    (thr : MetricThreshold) : ServiceState :=
  match currentValueFor thr.type m with
  | none => st
  | some currentValue =>
    if thr.threshold < currentValue then
      match findActiveAlert thr.type st.alerts with
      | some _ => st
      | none =>
        { alerts := st.alerts ++
            [{ id := st.nextId
               type := thr.type
               message := generateAlertMessage thr.type currentValue thr.threshold
               value := currentValue
               threshold := thr.threshold
               severity := calculateSeverity currentValue thr.threshold
               status := .active
               triggeredAt := m.timestamp
               resolvedAt := none }]
          nextId := st.nextId + 1 }
    else
      { st with alerts := (resolveActiveAlerts thr.type now st.alerts).1 }

/-- `Service.CheckThresholds`: fetch the enabled thresholds and run the loop.
`thresholds` is the full `metric_thresholds` table; the `WHERE enabled = true`
clause is the filter. -/
def CheckThresholds (thresholds : List MetricThreshold) (m : SystemMetrics)
    (now : Nat) (st : ServiceState) : ServiceState :=
  (thresholds.filter (·.enabled)).foldl (processThreshold m now) st

/-- One tick of the automatic evaluation path: the metrics observed and the
threshold table at that tick. -/
structure EvalCycle where
  thresholds : List MetricThreshold
  metrics : SystemMetrics
  now : Nat

/-- A sequence of automatic evaluation cycles applied in order. -/
def runCycles (cycles : List EvalCycle) (st : ServiceState) : ServiceState :=
  cycles.foldl (fun s c => CheckThresholds c.thresholds c.metrics c.now s) st

/-- The database before any alert has ever been created. -/
def initialState : ServiceState := { alerts := [], nextId := 1 }

/-- The alerts of one metric type, in table order. -/
def alertsOfType (ty : MetricType) (alerts : List Alert) : List Alert :=
  alerts.filter (fun a => a.type = ty)

/-- Effect of the manual `Service.ResolveAlert` UPDATE on one row
(`id = ? AND status = 'active'`). -/
def resolveByIdRow (alertID : Nat) (now : Nat) (a : Alert) : Alert :=
  if a.id = alertID ∧ a.status = .active then
    { a with status := .resolved, resolvedAt := some now }
  else a

/-- The error returned by `Service.ResolveAlert` when `RowsAffected == 0`. -/
inductive ResolveError where
  | notFoundOrAlreadyResolved
deriving DecidableEq, Repr

/-- `Service.ResolveAlert`: UPDATE by id and active status; if no row was
affected, report `alert not found or already resolved`. -/
def ResolveAlert (alertID : Nat) (now : Nat) (alerts : List Alert) :
    List Alert × Option ResolveError :=
  let rowsAffected :=
    (alerts.filter (fun a => a.id = alertID ∧ a.status = .active)).length
  if rowsAffected = 0 then (alerts, some .notFoundOrAlreadyResolved)
  else (alerts.map (resolveByIdRow alertID now), none)

end Monitor

namespace Logs

/-- `logs.LogLevel` with its four constants. -/
inductive LogLevel where
  | INFO
  | WARN
  | ERROR
  | DEBUG
deriving DecidableEq, Repr

/-- The uppercase name of a level, as it appears in the regex alternatives. -/
def levelName (l : LogLevel) : String :=
  match l with
  | .INFO => "INFO"
  | .WARN => "WARN"
  | .ERROR => "ERROR"
  | .DEBUG => "DEBUG"

/-- Lines are modelled as character lists. -/
abbrev Chars := List Char

/-- `logs.LogEntry` (the unused `Time` field omitted; `ParseLine` never sets
it). -/
structure LogEntry where
  level : LogLevel
  message : Chars
deriving DecidableEq, Repr

/-- `logs.ErrorFrequency`. -/
structure ErrorFrequency where
  message : Chars
  count : Nat
deriving DecidableEq, Repr

/-- `logs.LogStats`. The Go `map[LogLevel]int` is modelled as an association
list in first-insertion order. -/
structure LogStats where
  levelCounts : List (LogLevel × Nat)
  topErrors : List ErrorFrequency
  totalEntries : Nat
deriving DecidableEq, Repr

/-- Case-insensitive match of an (uppercase) pattern against the front of the
input, as the `(?i)` regex does. -/
def matchCI : List Char → Chars → Bool
  | [], _ => true
  | _ :: _, [] => false
  | p :: ps, c :: cs => c.toUpper = p && matchCI ps cs

/-- The level whose bracketed form `[LEVEL]` matches at the front of `cs`
(first alternative of the regex, tried in source order). -/
def bracketLevelHere (cs : Chars) : Option LogLevel :=
  if matchCI "[INFO]".toList cs then some .INFO
  else if matchCI "[WARN]".toList cs then some .WARN
  else if matchCI "[ERROR]".toList cs then some .ERROR
  else if matchCI "[DEBUG]".toList cs then some .DEBUG
  else none

/-- Leftmost position at which the bracketed alternative `\[(LEVEL)\]`
matches: scan positions left to right as the RE2 engine does. -/
def findBracketLevel : Chars → Option LogLevel
  | [] => none
  | c :: cs =>
    match bracketLevelHere (c :: cs) with
    | some l => some l
    | none => findBracketLevel cs

/-- The level whose anchored form `^LEVEL:` matches (second alternative of
the regex; only possible at position 0). -/
def leadingLevel (cs : Chars) : Option LogLevel :=
  if matchCI "INFO:".toList cs then some .INFO
  else if matchCI "WARN:".toList cs then some .WARN
  else if matchCI "ERROR:".toList cs then some .ERROR
  else if matchCI "DEBUG:".toList cs then some .DEBUG
  else none

/-- `FindStringSubmatch` on the pattern
`(?i)\[(INFO|WARN|ERROR|DEBUG)\]|^(INFO|WARN|ERROR|DEBUG):`.
Go picks the leftmost match; a leading `LEVEL:` match starts at position 0 and
a bracketed match never starts at position 0 on the same line (it needs `[`
where the other needs a letter), so the anchored alternative wins whenever it
matches. The `Bool` is `true` when capture group 1 (bracketed) matched. -/
def regexMatch (cs : Chars) : Option (Bool × LogLevel) :=
  match leadingLevel cs with
  | some l => some (false, l)
  | none => (findBracketLevel cs).map (fun l => (true, l))

/-- `strings.TrimSpace`. -/
def trimChars (cs : Chars) : Chars :=
  ((cs.dropWhile Char.isWhitespace).reverse.dropWhile Char.isWhitespace).reverse

/-- `strings.SplitN(line, sep, 2)` second part: everything after the first
occurrence of `sep`, or `[]` when `sep` does not occur (in which case the Go
code leaves `message` empty). -/
def afterFirst (sep : Char) (cs : Chars) : Chars :=
  match cs.dropWhile (· ≠ sep) with
  | [] => []
  | _ :: rest => rest

/-- `LogAnalyzer.ParseLine`: match the level regex; extract the message after
the first `]` (bracketed form) or the first `:` (prefixed form); default to
the whole line when the extracted message is empty. -/
def ParseLine (line : Chars) : Option LogEntry :=
  match regexMatch line with
  | none => none
  | some (bracketed, level) =>
    let message :=
      if bracketed then trimChars (afterFirst ']' line)
      else trimChars (afterFirst ':' line)
    let message := if message = [] then line else message
    some { level := level, message := message }

/-- Bump a counter keyed by `x` in an association-list model of a Go map. -/
def bumpCount {α : Type} [DecidableEq α] (x : α) : List (α × Nat) → List (α × Nat)
  | [] => [(x, 1)]
  | (k, n) :: rest => if k = x then (k, n + 1) :: rest else (k, n) :: bumpCount x rest

/-- The in-progress accumulators of `ParseLogFile`'s scan loop. -/
structure ScanState where
  levelCounts : List (LogLevel × Nat)
  totalEntries : Nat
  errorMessages : List (Chars × Nat)
deriving DecidableEq, Repr

/-- One iteration of the `scanner.Scan()` loop: trim, skip blank lines,
parse, and update the counters. -/
def scanLine (st : ScanState) (raw : Chars) : ScanState :=
  let line := trimChars raw
  if line = [] then st
  else
    match ParseLine line with
    | none => st
    | some entry =>
      { levelCounts := bumpCount entry.level st.levelCounts
        totalEntries := st.totalEntries + 1
        errorMessages :=
          if entry.level = .ERROR then bumpCount entry.message st.errorMessages
          else st.errorMessages }

/-- Insert into a list kept in descending order of `count`; ties keep the
earlier element first. This is a deterministic representative of
`sort.Slice(errors, func(i, j) ... Count > Count)`, whose order among equal
counts is unspecified (Go map iteration order feeds it). -/
def insertByCountDesc (e : ErrorFrequency) : List ErrorFrequency → List ErrorFrequency
  | [] => [e]
  | f :: rest => if f.count < e.count then e :: f :: rest else f :: insertByCountDesc e rest

/-- Sort by frequency descending. -/
def sortByCountDesc : List ErrorFrequency → List ErrorFrequency
  | [] => []
  | e :: rest => insertByCountDesc e (sortByCountDesc rest)

/-- `LogAnalyzer.getTopErrors`. -/
def getTopErrors (errorMessages : List (Chars × Nat)) (topN : Nat) : List ErrorFrequency :=
  let errors := errorMessages.map (fun p => ErrorFrequency.mk p.1 p.2)
  let sorted := sortByCountDesc errors
  if sorted.length > topN then sorted.take topN else sorted

/-- The statistics for a file whose lines were all read successfully. -/
def analyzeLines (lines : List Chars) : LogStats :=
  let st := lines.foldl scanLine { levelCounts := [], totalEntries := 0, errorMessages := [] }
  { levelCounts := st.levelCounts
    topErrors := getTopErrors st.errorMessages 5
    totalEntries := st.totalEntries }

/-- The error kind `ParseLogFile` returns when the file cannot be opened or
read (`failed to open log file` / `error reading log file`). -/
inductive FileError where
  | fileAccessError
deriving DecidableEq, Repr

/-- `LogAnalyzer.ParseLogFile`: the file system is modelled by the argument —
`none` when the path cannot be opened or read, `some lines` for a readable
file's lines. -/
def ParseLogFile (file : Option (List Chars)) : Except FileError LogStats :=
  match file with
  | none => .error .fileAccessError
  | some lines => .ok (analyzeLines lines)

/-- Count of a level in the association-list model of `level_counts` (0 when
the key is absent, as for a Go map read). -/
def lookupCount {α : Type} [DecidableEq α] (x : α) : List (α × Nat) → Nat
  | [] => 0
  | (k, n) :: rest => if k = x then n else lookupCount x rest

/-- The ERROR message extracted from a raw line, when the trimmed line parses
to an ERROR entry. -/
def extractErrMsg (raw : Chars) : Option Chars :=
  let line := trimChars raw
  if line = [] then none
  else
    match ParseLine line with
    | some entry => if entry.level = .ERROR then some entry.message else none
    | none => none

/-- Frequency of `msg` among the ERROR lines of the input. -/
def errCount (msg : Chars) (lines : List Chars) : Nat :=
  (lines.filterMap extractErrMsg).count msg

/-- Number of distinct messages among the ERROR lines of the input. -/
def distinctErrorMessages (lines : List Chars) : Nat :=
  (lines.filterMap extractErrMsg).dedup.length

/-- Spec wording: the bracketed form `[LEVEL]` occurs, case-insensitively,
somewhere in the line. -/
def SpecBracketForm (line : Chars) : Prop :=
  ∃ (l : LogLevel) (i : Nat) (rest : Chars),
    (line.drop i).map Char.toUpper = ("[" ++ levelName l ++ "]").toList ++ rest

/-- Spec wording: the line begins, case-insensitively, with `LEVEL:`. -/
def SpecLeadingForm (line : Chars) : Prop :=
  ∃ (l : LogLevel) (rest : Chars),
    line.map Char.toUpper = (levelName l ++ ":").toList ++ rest

/-- Spec wording: the line carries a recognized level tag in one of the two
accepted forms. -/
def SpecHasLevelTag (line : Chars) : Prop :=
  SpecBracketForm line ∨ SpecLeadingForm line

end Logs

namespace Collector

/-- The error type of the sample source (`gopsutil` failures). -/
inductive SampleError where
  | cpuFailed
  | memFailed
deriving DecidableEq, Repr

/-- `metrics.Metric`: one stored reading (`CreatedAt` omitted). -/
structure Metric where
  type : Monitor.MetricType
  value : ℚ
  unit : String
  timestamp : Nat
deriving DecidableEq, Repr

/-- The inputs one tick of `Collector.collectMetrics` receives from the
sample source: the result of `cpu.Percent` and of `mem.VirtualMemory`. -/
structure SampleResult where
  cpu : Except SampleError ℚ
  mem : Except SampleError ℚ
  now : Nat
deriving Repr

/-- `Collector.collectMetrics`: read CPU, append the CPU reading, read
memory, append the memory reading; a sample-source failure returns the error
at that point. The returned list is the metric table after the cycle and the
`Option` the error `Start` would log. -/
def collectMetrics (s : SampleResult) (db : List Metric) :
    List Metric × Option SampleError :=
  match s.cpu with
  | .error e => (db, some e)
  | .ok cpuValue =>
    let db := db ++ [{ type := Monitor.CPUUsage, value := cpuValue, unit := "%",
                       timestamp := s.now }]
    match s.mem with
    | .error e => (db, some e)
    | .ok memValue =>
      (db ++ [{ type := Monitor.MemoryUsage, value := memValue, unit := "%",
                timestamp := s.now }], none)

/-- The ticker loop of `Collector.Start`: each tick runs `collectMetrics`;
an error is logged and the loop moves on to the next tick. -/
def runSampling (ticks : List SampleResult) (db : List Metric) : List Metric :=
  match ticks with
  | [] => db
  | t :: rest => runSampling rest (collectMetrics t db).1

end Collector

namespace Monitor

theorem activeCount_eq_zero_iff (ty : MetricType) (alerts : List Alert) :
    activeCount ty alerts = 0 ↔ ∀ a ∈ alerts, ¬(isActiveOfType ty a = true) := by
  simp [activeCount, List.length_eq_zero, List.filter_eq_nil_iff]

theorem findActiveAlert_eq_none_iff (ty : MetricType) (alerts : List Alert) :
    findActiveAlert ty alerts = none ↔ activeCount ty alerts = 0 := by
  rw [activeCount_eq_zero_iff, findActiveAlert, List.find?_eq_none]

theorem isActiveOfType_resolveRow (ty ty' : MetricType) (now : Nat) (a : Alert) :
    isActiveOfType ty (resolveRow ty' now a) =
      (isActiveOfType ty a && !(ty = ty' : Bool)) := by
  by_cases hty : a.type = ty' <;> by_cases hst : a.status = AlertStatus.active <;>
    by_cases h : a.type = ty <;>
    simp_all [resolveRow, isActiveOfType]

theorem activeCount_map_resolveRow (ty ty' : MetricType) (now : Nat)
    (alerts : List Alert) :
    activeCount ty (alerts.map (resolveRow ty' now)) =
      if ty = ty' then 0 else activeCount ty alerts := by
  induction alerts with
  | nil => simp [activeCount]
  | cons a rest ih =>
    simp only [List.map_cons, activeCount, List.filter_cons] at *
    rw [isActiveOfType_resolveRow]
    by_cases hyy : ty = ty' <;> by_cases ha : isActiveOfType ty a = true <;>
      simp_all

theorem activeCount_append (ty : MetricType) (l₁ l₂ : List Alert) :
    activeCount ty (l₁ ++ l₂) = activeCount ty l₁ + activeCount ty l₂ := by
  simp [activeCount, List.filter_append]

/-- C4: for every value and positive threshold the severity is tiered on
`exceedPct = (value − threshold) / threshold × 100` with lower boundaries
inclusive — `≥ 50` critical, `[25, 50)` high, `[10, 25)` medium, `< 10` low —
and in particular `(100, 80) ↦ high`, `(120, 80) ↦ critical`,
`(88, 80) ↦ medium`, `(84, 80) ↦ low`. -/
theorem calculateSeverity_spec (value threshold : ℚ) (hpos : 0 < threshold) :
    ((calculateSeverity value threshold = .critical ↔
        50 ≤ ((value - threshold) / threshold) * 100) ∧
     (calculateSeverity value threshold = .high ↔
        25 ≤ ((value - threshold) / threshold) * 100 ∧
        ((value - threshold) / threshold) * 100 < 50) ∧
     (calculateSeverity value threshold = .medium ↔
        10 ≤ ((value - threshold) / threshold) * 100 ∧
        ((value - threshold) / threshold) * 100 < 25) ∧
     (calculateSeverity value threshold = .low ↔
        ((value - threshold) / threshold) * 100 < 10)) ∧
    calculateSeverity 100 80 = .high ∧
    calculateSeverity 120 80 = .critical ∧
    calculateSeverity 88 80 = .medium ∧
    calculateSeverity 84 80 = .low := by
  refine ⟨?_, by norm_num [calculateSeverity], by norm_num [calculateSeverity],
    by norm_num [calculateSeverity], by norm_num [calculateSeverity]⟩
  simp only [calculateSeverity, ge_iff_le]
  split_ifs with h1 h2 h3 <;> push_neg at *
  all_goals
    refine ⟨?_, ?_, ?_, ?_⟩ <;> constructor <;> intro h <;>
    first
      | rfl
      | assumption
      | exact ⟨by linarith, by linarith⟩
      | (obtain ⟨h', h''⟩ := h; exfalso; linarith)
      | (exfalso; linarith)
      | (cases h)

/-- Witness for C4 at `value = 100`, `threshold = 80`. -/
theorem calculateSeverity_spec_witness :
    calculateSeverity 100 80 = .high :=
  (calculateSeverity_spec 100 80 (by norm_num)).2.1

/-- C10: manual by-id resolution errors exactly when no alert with that id is
active (including an already-resolved one); on success the alert is marked
resolved with `resolved_at` set; repeating the same id always fails. -/
theorem ResolveAlert_spec (alertID now now2 : Nat) (alerts : List Alert) :
    ((∀ a ∈ alerts, ¬(a.id = alertID ∧ a.status = .active)) →
       ResolveAlert alertID now alerts = (alerts, some .notFoundOrAlreadyResolved)) ∧
    (∀ a ∈ alerts, a.id = alertID → a.status = .active →
       (ResolveAlert alertID now alerts).2 = none ∧
       { a with status := .resolved, resolvedAt := some now } ∈
         (ResolveAlert alertID now alerts).1) ∧
    (ResolveAlert alertID now2 (ResolveAlert alertID now alerts).1).2 =
      some .notFoundOrAlreadyResolved ∧
    (ResolveAlert alertID now2 (ResolveAlert alertID now alerts).1).1 =
      (ResolveAlert alertID now alerts).1 := by
  have hfilnil : ∀ l : List Alert,
      (∀ a ∈ l, ¬(a.id = alertID ∧ a.status = AlertStatus.active)) →
      l.filter (fun a => a.id = alertID ∧ a.status = .active) = [] := by
    intro l h
    rw [List.filter_eq_nil_iff]
    intro a ha
    simpa using h a ha
  have hresolved : ∀ b ∈ alerts.map (resolveByIdRow alertID now),
      ¬(b.id = alertID ∧ b.status = AlertStatus.active) := by
    intro b hb
    rcases List.mem_map.mp hb with ⟨a, _, rfl⟩
    unfold resolveByIdRow
    by_cases h : a.id = alertID ∧ a.status = AlertStatus.active
    · simp [h]
    · rw [if_neg h]
      exact h
  have key : ∀ (l : List Alert),
      l.filter (fun a => a.id = alertID ∧ a.status = .active) = [] → ∀ n,
      ResolveAlert alertID n l = (l, some .notFoundOrAlreadyResolved) := by
    intro l hl n
    simp only [ResolveAlert]
    rw [hl]
    rfl
  refine ⟨fun hnone => key alerts (hfilnil alerts hnone) now, fun a ha hid hst => ?_, ?_⟩
  · have hmem : a ∈ alerts.filter (fun a => a.id = alertID ∧ a.status = .active) :=
      List.mem_filter.mpr ⟨ha, by simp [hid, hst]⟩
    have hne : (alerts.filter
        (fun a => a.id = alertID ∧ a.status = .active)).length ≠ 0 := by
      intro h0
      rw [List.length_eq_zero] at h0
      rw [h0] at hmem
      simp at hmem
    refine ⟨?_, ?_⟩
    · simp only [ResolveAlert, if_neg hne]
    · simp only [ResolveAlert, if_neg hne]
      exact List.mem_map.mpr ⟨a, ha, by simp [resolveByIdRow, hid, hst]⟩
  · by_cases h0 : (alerts.filter
        (fun a => a.id = alertID ∧ a.status = .active)).length = 0
    · have hl : (alerts.filter
          (fun a => a.id = alertID ∧ a.status = .active)) = [] :=
        List.length_eq_zero.mp h0
      rw [key alerts hl now]
      rw [key alerts hl now2]
      exact ⟨rfl, rfl⟩
    · have hfst : ResolveAlert alertID now alerts =
          (alerts.map (resolveByIdRow alertID now), none) := by
        simp only [ResolveAlert, if_neg h0]
      rw [hfst]
      rw [key _ (hfilnil _ hresolved) now2]
      exact ⟨rfl, rfl⟩

/-- Witness for C10: resolving id 1 in a table whose only alert with id 1 is
active succeeds, and resolving it again fails. -/
theorem ResolveAlert_spec_witness :
    (ResolveAlert 1 9
        [{ id := 1, type := CPUUsage, message := .highCpu 90 80, value := 90,
           threshold := 80, severity := .high, status := .active,
           triggeredAt := 3, resolvedAt := none }]).2 = none ∧
    (ResolveAlert 1 10 (ResolveAlert 1 9
        [{ id := 1, type := CPUUsage, message := .highCpu 90 80, value := 90,
           threshold := 80, severity := .high, status := .active,
           triggeredAt := 3, resolvedAt := none }]).1).2 =
      some .notFoundOrAlreadyResolved := by
  have h := ResolveAlert_spec 1 9 10
    [{ id := 1, type := CPUUsage, message := .highCpu 90 80, value := 90,
       threshold := 80, severity := .high, status := .active,
       triggeredAt := 3, resolvedAt := none }]
  exact ⟨(h.2.1
    { id := 1, type := CPUUsage, message := .highCpu 90 80, value := 90,
      threshold := 80, severity := .high, status := .active,
      triggeredAt := 3, resolvedAt := none } (by simp) rfl rfl).1, h.2.2.1⟩

/-- C3: when the current reading for a type is at or below its enabled
threshold, the evaluation cycle resolves every alert with `status = active`
of that type (status becomes resolved and `resolved_at` is set), leaves the
rest untouched; with no active alert the resolution is a no-op with
`rowsAffected = 0` and no error, and repeating it is again a no-op. -/
theorem resolveActiveAlerts_spec (ty : MetricType) (now : Nat) (alerts : List Alert) :
    activeCount ty (resolveActiveAlerts ty now alerts).1 = 0 ∧
    (∀ a ∈ alerts, a.type = ty → a.status = .active →
       { a with status := .resolved, resolvedAt := some now } ∈
         (resolveActiveAlerts ty now alerts).1) ∧
    (∀ a ∈ alerts, ¬(a.type = ty ∧ a.status = .active) →
       a ∈ (resolveActiveAlerts ty now alerts).1) ∧
    (resolveActiveAlerts ty now alerts).1.length = alerts.length ∧
    (activeCount ty alerts = 0 → resolveActiveAlerts ty now alerts = (alerts, 0)) ∧
    (∀ now2, resolveActiveAlerts ty now2 (resolveActiveAlerts ty now alerts).1 =
       ((resolveActiveAlerts ty now alerts).1, 0)) ∧
    (∀ (m : SystemMetrics) (st : ServiceState) (thr : MetricThreshold) (v : ℚ),
       currentValueFor thr.type m = some v → ¬ thr.threshold < v →
       processThreshold m now st thr =
         { st with alerts := (resolveActiveAlerts thr.type now st.alerts).1 }) := by
  have hnoop : ∀ (l : List Alert) (n : Nat), activeCount ty l = 0 →
      resolveActiveAlerts ty n l = (l, 0) := by
    intro l n h0
    have hall := (activeCount_eq_zero_iff ty l).mp h0
    have hmap : l.map (resolveRow ty n) = l := by
      have hcongr : l.map (resolveRow ty n) = l.map id :=
        List.map_congr_left (fun a ha => by
          simp only [resolveRow, id]
          rw [if_neg (by simpa using hall a ha)])
      rw [hcongr, List.map_id]
    simp [resolveActiveAlerts, hmap, h0]
  have hzero : activeCount ty (resolveActiveAlerts ty now alerts).1 = 0 := by
    have := activeCount_map_resolveRow ty ty now alerts
    simpa [resolveActiveAlerts] using this
  refine ⟨hzero, fun a ha hty hst => ?_, fun a ha hn => ?_, by
      simp [resolveActiveAlerts], hnoop alerts now, fun now2 => hnoop _ now2 hzero,
      fun m st thr v hv hle => ?_⟩
  · refine List.mem_map.mpr ⟨a, ha, ?_⟩
    simp [resolveRow, isActiveOfType, hty, hst]
  · refine List.mem_map.mpr ⟨a, ha, ?_⟩
    simp only [resolveRow]
    rw [if_neg (by simpa [isActiveOfType] using hn)]
  · simp only [processThreshold, hv]
    rw [if_neg hle]

/-- Witness for C3: resolving the cpu type in an empty alert table is a no-op
with zero rows affected. -/
theorem resolveActiveAlerts_spec_witness :
    resolveActiveAlerts CPUUsage 7 [] = ([], 0) :=
  (resolveActiveAlerts_spec CPUUsage 7 []).2.2.2.2.1 rfl

/-- C2: in an evaluation cycle, a new alert is created exactly when the
reading strictly exceeds the enabled threshold and no active alert of that
type exists; it carries `triggered_at` = reading timestamp, the reading as
value, the configured threshold, the computed severity and active status.
With an active alert already present the cycle changes nothing, and with a
non-exceeding reading nothing is created. -/
theorem checkThresholds_create_spec (m : SystemMetrics) (now : Nat)
    (st : ServiceState) (thr : MetricThreshold) (v : ℚ)
    (hv : currentValueFor thr.type m = some v) :
    (thr.threshold < v → activeCount thr.type st.alerts = 0 →
       processThreshold m now st thr =
         { alerts := st.alerts ++
             [{ id := st.nextId, type := thr.type,
                message := generateAlertMessage thr.type v thr.threshold,
                value := v, threshold := thr.threshold,
                severity := calculateSeverity v thr.threshold,
                status := .active, triggeredAt := m.timestamp, resolvedAt := none }],
           nextId := st.nextId + 1 }) ∧
    (thr.threshold < v → activeCount thr.type st.alerts ≠ 0 →
       processThreshold m now st thr = st) ∧
    (¬ thr.threshold < v →
       (processThreshold m now st thr).alerts.length = st.alerts.length ∧
       (processThreshold m now st thr).nextId = st.nextId) := by
  refine ⟨fun hlt h0 => ?_, fun hlt hne => ?_, fun hle => ?_⟩
  · have hfind : findActiveAlert thr.type st.alerts = none :=
      (findActiveAlert_eq_none_iff thr.type st.alerts).mpr h0
    simp only [processThreshold, hv]
    rw [if_pos hlt, hfind]
  · have hsome : (findActiveAlert thr.type st.alerts).isSome := by
      rw [findActiveAlert, List.find?_isSome]
      have hlen : st.alerts.filter (isActiveOfType thr.type) ≠ [] := by
        intro hnil
        exact hne (by simp [activeCount, hnil])
      obtain ⟨a, ha⟩ := List.exists_mem_of_ne_nil _ hlen
      exact ⟨a, (List.mem_filter.mp ha).1, (List.mem_filter.mp ha).2⟩
    obtain ⟨w, hw⟩ := Option.isSome_iff_exists.mp hsome
    simp only [processThreshold, hv]
    rw [if_pos hlt, hw]
  · simp only [processThreshold, hv]
    rw [if_neg hle]
    simp [resolveActiveAlerts]

/-- Witness for C2: a cpu reading of 90 against an enabled threshold of 80
over an empty table creates exactly the specified alert. -/
theorem checkThresholds_create_spec_witness :
    processThreshold { cpuUsage := 90, memoryUsage := 50, timestamp := 3 } 0
      initialState { id := 1, type := CPUUsage, threshold := 80, enabled := true } =
    { alerts := [{ id := 1, type := CPUUsage,
                   message := generateAlertMessage CPUUsage 90 80, value := 90,
                   threshold := 80, severity := calculateSeverity 90 80,
                   status := .active, triggeredAt := 3, resolvedAt := none }],
      nextId := 2 } :=
  (checkThresholds_create_spec { cpuUsage := 90, memoryUsage := 50, timestamp := 3 }
    0 initialState { id := 1, type := CPUUsage, threshold := 80, enabled := true }
    90 rfl).1 (by norm_num) rfl

theorem activeCount_singleton (ty : MetricType) (a : Alert) :
    activeCount ty [a] = if isActiveOfType ty a then 1 else 0 := by
  by_cases h : isActiveOfType ty a = true <;> simp [activeCount, h]

theorem processThreshold_preserves (m : SystemMetrics) (now : Nat)
    (st : ServiceState) (thr : MetricThreshold)
    (h : ∀ ty, activeCount ty st.alerts ≤ 1) :
    ∀ ty, activeCount ty (processThreshold m now st thr).alerts ≤ 1 := by
  intro ty
  cases hcv : currentValueFor thr.type m with
  | none => simpa only [processThreshold, hcv] using h ty
  | some v =>
    by_cases hlt : thr.threshold < v
    · cases hfind : findActiveAlert thr.type st.alerts with
      | some a =>
        simp only [processThreshold, hcv, if_pos hlt, hfind]
        exact h ty
      | none =>
        simp only [processThreshold, hcv, if_pos hlt, hfind]
        rw [activeCount_append, activeCount_singleton]
        by_cases hty : ty = thr.type
        · subst hty
          rw [(findActiveAlert_eq_none_iff _ _).mp hfind]
          simp [isActiveOfType]
        · have : isActiveOfType ty
              { id := st.nextId, type := thr.type,
                message := generateAlertMessage thr.type v thr.threshold,
                value := v, threshold := thr.threshold,
                severity := calculateSeverity v thr.threshold,
                status := .active, triggeredAt := m.timestamp,
                resolvedAt := none } = false := by
            simp [isActiveOfType]
            exact fun hh => hty hh.symm
          rw [this]
          simpa using h ty
    · simp only [processThreshold, hcv, if_neg hlt, resolveActiveAlerts]
      rw [activeCount_map_resolveRow]
      by_cases hty : ty = thr.type
      · rw [if_pos hty]
        exact Nat.zero_le 1
      · rw [if_neg hty]
        exact h ty

theorem foldl_processThreshold_preserves (m : SystemMetrics) (now : Nat)
    (l : List MetricThreshold) :
    ∀ st : ServiceState, (∀ ty, activeCount ty st.alerts ≤ 1) →
    ∀ ty, activeCount ty (l.foldl (processThreshold m now) st).alerts ≤ 1 := by
  induction l with
  | nil => intro st h; exact h
  | cons thr rest ih =>
    intro st h
    exact ih _ (processThreshold_preserves m now st thr h)

theorem checkThresholds_preserves (thresholds : List MetricThreshold)
    (m : SystemMetrics) (now : Nat) (st : ServiceState)
    (h : ∀ ty, activeCount ty st.alerts ≤ 1) :
    ∀ ty, activeCount ty (CheckThresholds thresholds m now st).alerts ≤ 1 :=
  foldl_processThreshold_preserves m now (thresholds.filter (·.enabled)) st h

/-- C1: along every sequence of automatic evaluation cycles starting from an
empty alert table, each metric type has at most one alert with
`status = active` — never two or more. -/
theorem activeAlert_invariant (cycles : List EvalCycle) (ty : MetricType) :
    activeCount ty (runCycles cycles initialState).alerts ≤ 1 := by
  suffices h : ∀ st : ServiceState, (∀ ty, activeCount ty st.alerts ≤ 1) →
      ∀ ty, activeCount ty (runCycles cycles st).alerts ≤ 1 by
    exact h initialState (fun ty => by simp [initialState, activeCount]) ty
  induction cycles with
  | nil => intro st h ty; exact h ty
  | cons c rest ih =>
    intro st h ty
    exact ih _ (checkThresholds_preserves c.thresholds c.metrics c.now st h) ty

theorem alertsOfType_map_resolveRow (ty ty' : MetricType) (now : Nat)
    (hne : ty' ≠ ty) (l : List Alert) :
    alertsOfType ty (l.map (resolveRow ty' now)) = alertsOfType ty l := by
  induction l with
  | nil => rfl
  | cons a rest ih =>
    simp only [List.map_cons, alertsOfType, List.filter_cons] at *
    by_cases hty : a.type = ty
    · have hnotty' : isActiveOfType ty' a = false := by
        simp [isActiveOfType, hty]
        exact fun hh => absurd hh.symm hne
      have hid : resolveRow ty' now a = a := by
        simp [resolveRow, hnotty']
      rw [hid]
      simp only [hty, ih]
    · have htype : (resolveRow ty' now a).type = a.type := by
        unfold resolveRow
        by_cases hb : isActiveOfType ty' a = true <;> simp [hb]
      rw [htype]
      simp only [hty, ih]
      simp [hty]

theorem alertsOfType_processThreshold (m : SystemMetrics) (now : Nat)
    (st : ServiceState) (thr : MetricThreshold) (ty : MetricType)
    (hne : thr.type ≠ ty) :
    alertsOfType ty (processThreshold m now st thr).alerts =
      alertsOfType ty st.alerts := by
  cases hcv : currentValueFor thr.type m with
  | none => simp only [processThreshold, hcv]
  | some v =>
    by_cases hlt : thr.threshold < v
    · cases hfind : findActiveAlert thr.type st.alerts with
      | some a => simp only [processThreshold, hcv, if_pos hlt, hfind]
      | none =>
        simp only [processThreshold, hcv, if_pos hlt, hfind]
        have hsingle : alertsOfType ty
            ([{ id := st.nextId, type := thr.type,
                message := generateAlertMessage thr.type v thr.threshold,
                value := v, threshold := thr.threshold,
                severity := calculateSeverity v thr.threshold,
                status := .active, triggeredAt := m.timestamp,
                resolvedAt := none }] : List Alert) = [] := by
          simp [alertsOfType, hne]
        simp only [alertsOfType, List.filter_append] at hsingle ⊢
        rw [hsingle, List.append_nil]
    · simp only [processThreshold, hcv, if_neg hlt, resolveActiveAlerts]
      exact alertsOfType_map_resolveRow ty thr.type now hne st.alerts

theorem foldl_processThreshold_frame (m : SystemMetrics) (now : Nat)
    (ty : MetricType) :
    ∀ (l : List MetricThreshold), (∀ thr ∈ l, thr.type ≠ ty) →
    ∀ st : ServiceState,
      alertsOfType ty (l.foldl (processThreshold m now) st).alerts =
        alertsOfType ty st.alerts := by
  intro l
  induction l with
  | nil => intro _ st; rfl
  | cons thr rest ih =>
    intro hne st
    rw [List.foldl_cons,
      ih (fun t ht => hne t (List.mem_cons_of_mem _ ht)) _,
      alertsOfType_processThreshold m now st thr ty (hne thr (List.mem_cons_self _ _))]

/-- C5: an evaluation cycle in which every threshold of a given type is
disabled leaves the alerts of that type — active ones included — completely
unchanged: disabled thresholds neither create nor resolve. -/
theorem checkThresholds_disabled_frame (thresholds : List MetricThreshold)
    (m : SystemMetrics) (now : Nat) (st : ServiceState) (ty : MetricType)
    (hdis : ∀ thr ∈ thresholds, thr.type = ty → thr.enabled = false) :
    alertsOfType ty (CheckThresholds thresholds m now st).alerts =
      alertsOfType ty st.alerts := by
  unfold CheckThresholds
  have hne : ∀ thr ∈ thresholds.filter (·.enabled), thr.type ≠ ty := by
    intro thr hthr hty
    have hmem := List.mem_filter.mp hthr
    have := hdis thr hmem.1 hty
    rw [this] at hmem
    simpa using hmem.2
  exact foldl_processThreshold_frame m now ty (thresholds.filter (·.enabled)) hne st

/-- Witness for C5: a disabled cpu threshold leaves an existing active cpu
alert untouched through a full evaluation cycle. -/
theorem checkThresholds_disabled_frame_witness :
    alertsOfType CPUUsage (CheckThresholds
      [{ id := 1, type := CPUUsage, threshold := 80, enabled := false }]
      { cpuUsage := 95, memoryUsage := 50, timestamp := 4 } 9
      { alerts := [{ id := 1, type := CPUUsage, message := .highCpu 90 80,
                     value := 90, threshold := 80, severity := .high,
                     status := .active, triggeredAt := 3, resolvedAt := none }],
        nextId := 2 }).alerts =
    alertsOfType CPUUsage
      [{ id := 1, type := CPUUsage, message := .highCpu 90 80,
         value := 90, threshold := 80, severity := .high,
         status := .active, triggeredAt := 3, resolvedAt := none }] :=
  checkThresholds_disabled_frame
    [{ id := 1, type := CPUUsage, threshold := 80, enabled := false }]
    { cpuUsage := 95, memoryUsage := 50, timestamp := 4 } 9
    { alerts := [{ id := 1, type := CPUUsage, message := .highCpu 90 80,
                   value := 90, threshold := 80, severity := .high,
                   status := .active, triggeredAt := 3, resolvedAt := none }],
      nextId := 2 } CPUUsage (by simp)

end Monitor

namespace Collector

/-- C9 counterexample: when the CPU read succeeds and the memory read fails,
the cycle reports a sample-source error, yet the CPU reading has already been
appended to the store — the failed cycle is not fully skipped. -/
theorem collectMetrics_partial_append_counterexample :
    (collectMetrics { cpu := .ok 50, mem := .error .memFailed, now := 0 } []).2 =
      some .memFailed ∧
    (collectMetrics { cpu := .ok 50, mem := .error .memFailed, now := 0 } []).1 ≠
      [] := by
  refine ⟨rfl, fun h => ?_⟩
  have := congrArg List.length h
  simp [collectMetrics] at this

/-- C9 (amended): a CPU sampling failure skips the cycle with nothing
appended; a memory sampling failure after a successful CPU read leaves
exactly the already-appended CPU reading in the store; on full success
exactly one reading per type (cpu then memory) is appended; and a failed
cycle does not stop later cycles from running. -/
theorem collectMetrics_spec (s : SampleResult) (db : List Metric) :
    (∀ e, s.cpu = .error e → collectMetrics s db = (db, some e)) ∧
    (∀ c e, s.cpu = .ok c → s.mem = .error e →
       collectMetrics s db =
         (db ++ [{ type := Monitor.CPUUsage, value := c, unit := "%",
                   timestamp := s.now }], some e)) ∧
    (∀ c mv, s.cpu = .ok c → s.mem = .ok mv →
       collectMetrics s db =
         (db ++ [{ type := Monitor.CPUUsage, value := c, unit := "%",
                   timestamp := s.now },
                 { type := Monitor.MemoryUsage, value := mv, unit := "%",
                   timestamp := s.now }], none)) ∧
    (∀ e ticks, s.cpu = .error e → runSampling (s :: ticks) db = runSampling ticks db) := by
  refine ⟨fun e he => ?_, fun c e hc hm => ?_, fun c mv hc hm => ?_,
    fun e ticks he => ?_⟩
  · simp only [collectMetrics, he]
  · simp only [collectMetrics, hc, hm]
  · simp only [collectMetrics, hc, hm, List.append_assoc, List.cons_append,
      List.nil_append]
  · simp only [runSampling, collectMetrics, he]

/-- Witness for C9 (amended): a fully successful cycle over an empty store
appends exactly one cpu and one memory reading. -/
theorem collectMetrics_spec_witness :
    collectMetrics { cpu := .ok 50, mem := .ok 60, now := 2 } [] =
      ([{ type := Monitor.CPUUsage, value := 50, unit := "%", timestamp := 2 },
        { type := Monitor.MemoryUsage, value := 60, unit := "%", timestamp := 2 }],
       none) :=
  (collectMetrics_spec { cpu := .ok 50, mem := .ok 60, now := 2 } []).2.2.1
    50 60 rfl rfl

end Collector

namespace Logs

theorem matchCI_iff (pat : List Char) : ∀ cs : Chars,
    matchCI pat cs = true ↔ ∃ rest, cs.map Char.toUpper = pat ++ rest := by
  induction pat with
  | nil => intro cs; simp [matchCI]
  | cons p ps ih =>
    intro cs
    cases cs with
    | nil => simp [matchCI]
    | cons c cs' =>
      simp only [matchCI, List.map_cons, Bool.and_eq_true, decide_eq_true_eq,
        List.cons_append, List.cons.injEq]
      constructor
      · rintro ⟨h1, h2⟩
        obtain ⟨rest, hr⟩ := (ih cs').mp h2
        exact ⟨rest, h1, hr⟩
      · rintro ⟨rest, h1, h2⟩
        exact ⟨h1, (ih cs').mpr ⟨rest, h2⟩⟩

theorem leadingLevel_isSome_iff (cs : Chars) :
    (leadingLevel cs).isSome = true ↔ SpecLeadingForm cs := by
  constructor
  · intro h
    unfold leadingLevel at h
    split_ifs at h with h1 h2 h3 h4
    · exact ⟨.INFO, (matchCI_iff _ cs).mp h1⟩
    · exact ⟨.WARN, (matchCI_iff _ cs).mp h2⟩
    · exact ⟨.ERROR, (matchCI_iff _ cs).mp h3⟩
    · exact ⟨.DEBUG, (matchCI_iff _ cs).mp h4⟩
    · simp at h
  · rintro ⟨l, rest, hr⟩
    have hm : matchCI ((levelName l ++ ":").toList) cs = true :=
      (matchCI_iff _ cs).mpr ⟨rest, hr⟩
    unfold leadingLevel
    cases l <;> simp only [levelName] at hm <;> split_ifs <;> simp_all

theorem bracketLevelHere_isSome_iff (cs : Chars) :
    (bracketLevelHere cs).isSome = true ↔
      ∃ (l : LogLevel) (rest : Chars),
        cs.map Char.toUpper = ("[" ++ levelName l ++ "]").toList ++ rest := by
  constructor
  · intro h
    unfold bracketLevelHere at h
    split_ifs at h with h1 h2 h3 h4
    · exact ⟨.INFO, (matchCI_iff _ cs).mp h1⟩
    · exact ⟨.WARN, (matchCI_iff _ cs).mp h2⟩
    · exact ⟨.ERROR, (matchCI_iff _ cs).mp h3⟩
    · exact ⟨.DEBUG, (matchCI_iff _ cs).mp h4⟩
    · simp at h
  · rintro ⟨l, rest, hr⟩
    have hm : matchCI (("[" ++ levelName l ++ "]").toList) cs = true :=
      (matchCI_iff _ cs).mpr ⟨rest, hr⟩
    unfold bracketLevelHere
    cases l <;> simp only [levelName] at hm <;> split_ifs <;> simp_all

theorem findBracketLevel_isSome_iff : ∀ cs : Chars,
    (findBracketLevel cs).isSome = true ↔ SpecBracketForm cs := by
  intro cs
  induction cs with
  | nil =>
    constructor
    · intro h; simp [findBracketLevel] at h
    · rintro ⟨l, i, rest, h⟩
      rw [List.drop_nil] at h
      cases l <;> simp [levelName] at h
  | cons c cs' ih =>
    have hstep : findBracketLevel (c :: cs') =
        match bracketLevelHere (c :: cs') with
        | some l => some l
        | none => findBracketLevel cs' := rfl
    constructor
    · intro h
      rw [hstep] at h
      cases hb : bracketLevelHere (c :: cs') with
      | some l =>
        obtain ⟨l', rest, hr⟩ :=
          (bracketLevelHere_isSome_iff (c :: cs')).mp (by simp [hb])
        exact ⟨l', 0, rest, by simpa using hr⟩
      | none =>
        rw [hb] at h
        obtain ⟨l, i, rest, hr⟩ := ih.mp h
        exact ⟨l, i + 1, rest, by simpa using hr⟩
    · rintro ⟨l, i, rest, hr⟩
      rw [hstep]
      cases hb : bracketLevelHere (c :: cs') with
      | some l2 => simp
      | none =>
        cases i with
        | zero =>
          have hs : (bracketLevelHere (c :: cs')).isSome = true :=
            (bracketLevelHere_isSome_iff _).mpr ⟨l, rest, by simpa using hr⟩
          rw [hb] at hs
          simp at hs
        | succ i' =>
          exact ih.mpr ⟨l, i', rest, by simpa using hr⟩

theorem regexMatch_isSome_iff (line : Chars) :
    (regexMatch line).isSome = true ↔ SpecHasLevelTag line := by
  unfold regexMatch SpecHasLevelTag
  cases hl : leadingLevel line with
  | some l =>
    simp only [Option.isSome_some, true_iff]
    right
    exact (leadingLevel_isSome_iff line).mp (by simp [hl])
  | none =>
    have hnl : ¬ SpecLeadingForm line := by
      intro hsl
      have := (leadingLevel_isSome_iff line).mpr hsl
      rw [hl] at this
      simp at this
    show (Option.map (fun l => (true, l)) (findBracketLevel line)).isSome = true ↔
      SpecBracketForm line ∨ SpecLeadingForm line
    rw [Option.isSome_map', findBracketLevel_isSome_iff]
    constructor
    · exact Or.inl
    · rintro (h | h)
      · exact h
      · exact absurd h hnl

end Logs

namespace Logs

theorem ParseLine_isSome_iff (line : Chars) :
    (ParseLine line).isSome = true ↔ SpecHasLevelTag line := by
  rw [← regexMatch_isSome_iff]
  unfold ParseLine
  cases regexMatch line with
  | none => rfl
  | some p =>
    rcases p with ⟨b, l⟩
    rfl

theorem ParseLine_message_leading (line : Chars) (entry : LogEntry)
    (hp : ParseLine line = some entry) (hl : SpecLeadingForm line) :
    entry.message = (if trimChars (afterFirst ':' line) = [] then line
                     else trimChars (afterFirst ':' line)) := by
  have hsome : (leadingLevel line).isSome = true :=
    (leadingLevel_isSome_iff line).mpr hl
  obtain ⟨l, hleq⟩ := Option.isSome_iff_exists.mp hsome
  have hr : regexMatch line = some (false, l) := by
    unfold regexMatch
    rw [hleq]
  unfold ParseLine at hp
  rw [hr] at hp
  simp only [Bool.false_eq_true, if_false, Option.some.injEq] at hp
  rw [← hp]

theorem ParseLine_message_bracket (line : Chars) (entry : LogEntry)
    (hp : ParseLine line = some entry) (hl : ¬ SpecLeadingForm line) :
    entry.message = (if trimChars (afterFirst ']' line) = [] then line
                     else trimChars (afterFirst ']' line)) := by
  have hnone : leadingLevel line = none := by
    cases hleq : leadingLevel line with
    | none => rfl
    | some l =>
      exact absurd ((leadingLevel_isSome_iff line).mp (by simp [hleq])) hl
  have hr : regexMatch line =
      (findBracketLevel line).map (fun l => (true, l)) := by
    unfold regexMatch
    rw [hnone]
  unfold ParseLine at hp
  rw [hr] at hp
  cases hf : findBracketLevel line with
  | none =>
    rw [hf] at hp
    simp at hp
  | some l =>
    rw [hf] at hp
    simp only [Option.map_some', if_true, Option.some.injEq] at hp
    rw [← hp]

theorem scanLine_skip (st : ScanState) (raw : Chars)
    (h : ParseLine (trimChars raw) = none ∨ trimChars raw = []) :
    scanLine st raw = st := by
  unfold scanLine
  by_cases hb : trimChars raw = []
  · rw [if_pos hb]
  · rcases h with h | h
    · rw [if_neg hb, h]
    · exact absurd h hb

end Logs

namespace Logs

/-- C6: a line is recognized exactly when it carries a level tag in one of
the two case-insensitive forms — bracketed `[LEVEL]` anywhere or a leading
`LEVEL:` — with LEVEL among INFO, WARN, ERROR, DEBUG; an unrecognized line
feeds neither counter; the message is the remainder after the first `]`
(bracketed) or first `:` (leading), defaulting to the whole line when empty;
and the five-line example yields counts INFO 1, ERROR 2, WARN 1, total 4 and
top error `b` twice. -/
theorem ParseLine_spec :
    (∀ line : Chars, (ParseLine line).isSome = true ↔ SpecHasLevelTag line) ∧
    (∀ (line : Chars) (entry : LogEntry), ParseLine line = some entry →
       SpecLeadingForm line →
       entry.message = (if trimChars (afterFirst ':' line) = [] then line
                        else trimChars (afterFirst ':' line))) ∧
    (∀ (line : Chars) (entry : LogEntry), ParseLine line = some entry →
       ¬ SpecLeadingForm line →
       entry.message = (if trimChars (afterFirst ']' line) = [] then line
                        else trimChars (afterFirst ']' line))) ∧
    (∀ (st : ScanState) (raw : Chars),
       ParseLine (trimChars raw) = none ∨ trimChars raw = [] →
       scanLine st raw = st) ∧
    (lookupCount LogLevel.INFO (analyzeLines (["[INFO] a", "[ERROR] b",
        "[ERROR] b", "garbage line", "WARN: c"].map String.toList)).levelCounts = 1 ∧
     lookupCount LogLevel.ERROR (analyzeLines (["[INFO] a", "[ERROR] b",
        "[ERROR] b", "garbage line", "WARN: c"].map String.toList)).levelCounts = 2 ∧
     lookupCount LogLevel.WARN (analyzeLines (["[INFO] a", "[ERROR] b",
        "[ERROR] b", "garbage line", "WARN: c"].map String.toList)).levelCounts = 1 ∧
     lookupCount LogLevel.DEBUG (analyzeLines (["[INFO] a", "[ERROR] b",
        "[ERROR] b", "garbage line", "WARN: c"].map String.toList)).levelCounts = 0 ∧
     (analyzeLines (["[INFO] a", "[ERROR] b", "[ERROR] b", "garbage line",
        "WARN: c"].map String.toList)).totalEntries = 4 ∧
     (analyzeLines (["[INFO] a", "[ERROR] b", "[ERROR] b", "garbage line",
        "WARN: c"].map String.toList)).topErrors =
       [{ message := "b".toList, count := 2 }]) :=
  ⟨ParseLine_isSome_iff, ParseLine_message_leading, ParseLine_message_bracket,
   scanLine_skip, by decide, by decide, by decide, by decide, by decide, by decide⟩

/-- Witness for C6 at the leading-form line `WARN: c`. -/
theorem ParseLine_spec_witness :
    ({ level := .WARN, message := "c".toList } : LogEntry).message =
      (if trimChars (afterFirst ':' "WARN: c".toList) = [] then "WARN: c".toList
       else trimChars (afterFirst ':' "WARN: c".toList)) :=
  ParseLine_spec.2.1 "WARN: c".toList { level := .WARN, message := "c".toList }
    (by decide) ⟨.WARN, " C".toList, by decide⟩

end Logs

namespace Logs

theorem lookupCount_bumpCount {α : Type} [DecidableEq α] (x y : α)
    (l : List (α × Nat)) :
    lookupCount x (bumpCount y l) =
      lookupCount x l + (if x = y then 1 else 0) := by
  induction l with
  | nil =>
    by_cases h : x = y
    · simp [bumpCount, lookupCount, h]
    · simp [bumpCount, lookupCount, h, Ne.symm h]
  | cons p rest ih =>
    obtain ⟨k, n⟩ := p
    simp only [bumpCount]
    by_cases h1 : k = y
    · rw [if_pos h1]
      simp only [lookupCount]
      by_cases h2 : k = x
      · have hxy : x = y := h2 ▸ h1
        rw [if_pos h2, if_pos h2, if_pos hxy]
      · have hxy : ¬ x = y := fun h => h2 (h1.trans h.symm)
        rw [if_neg h2, if_neg h2, if_neg hxy]
        omega
    · rw [if_neg h1]
      simp only [lookupCount]
      by_cases h2 : k = x
      · have hxy : ¬ x = y := fun h => h1 (h2.trans h)
        rw [if_pos h2, if_pos h2, if_neg hxy]
        omega
      · rw [if_neg h2, if_neg h2, ih]

theorem keys_bumpCount {α : Type} [DecidableEq α] (y : α) (l : List (α × Nat)) :
    (bumpCount y l).map Prod.fst =
      if y ∈ l.map Prod.fst then l.map Prod.fst
      else l.map Prod.fst ++ [y] := by
  induction l with
  | nil => simp [bumpCount]
  | cons p rest ih =>
    obtain ⟨k, n⟩ := p
    by_cases hky : k = y
    · subst hky
      simp [bumpCount]
    · have hyk : ¬ y = k := fun h => hky h.symm
      by_cases hm : y ∈ rest.map Prod.fst <;>
        simp [bumpCount, hky, hyk, hm, ih]

theorem bumpCount_pos {α : Type} [DecidableEq α] (y : α) (l : List (α × Nat))
    (h : ∀ p ∈ l, 0 < p.2) : ∀ p ∈ bumpCount y l, 0 < p.2 := by
  induction l with
  | nil =>
    intro p hp
    simp [bumpCount] at hp
    simp [hp]
  | cons q rest ih =>
    obtain ⟨k, n⟩ := q
    intro p hp
    by_cases hky : k = y
    · simp only [bumpCount, if_pos hky] at hp
      rcases List.mem_cons.mp hp with h1 | h1
      · subst h1
        simp
      · exact h p (List.mem_cons_of_mem _ h1)
    · simp only [bumpCount, if_neg hky] at hp
      rcases List.mem_cons.mp hp with h1 | h1
      · subst h1
        exact h (k, n) (List.mem_cons_self _ _)
      · exact ih (fun q hq => h q (List.mem_cons_of_mem _ hq)) p h1

theorem keys_bumpCount_nodup {α : Type} [DecidableEq α] (y : α)
    (l : List (α × Nat)) (h : (l.map Prod.fst).Nodup) :
    ((bumpCount y l).map Prod.fst).Nodup := by
  rw [keys_bumpCount]
  by_cases hm : y ∈ l.map Prod.fst
  · rw [if_pos hm]
    exact h
  · rw [if_neg hm]
    simp [List.nodup_append, h, hm]

theorem mem_keys_iff_lookupCount_ne_zero {α : Type} [DecidableEq α] (x : α)
    (l : List (α × Nat)) (hpos : ∀ p ∈ l, 0 < p.2) :
    x ∈ l.map Prod.fst ↔ lookupCount x l ≠ 0 := by
  induction l with
  | nil => simp [lookupCount]
  | cons p rest ih =>
    obtain ⟨k, n⟩ := p
    by_cases hk : k = x
    · subst hk
      have hn : 0 < n := hpos (k, n) (List.mem_cons_self _ _)
      simp [lookupCount]
      omega
    · have hxk : ¬ x = k := fun h => hk h.symm
      simp only [List.map_cons, List.mem_cons, lookupCount, if_neg hk]
      rw [← ih (fun q hq => hpos q (List.mem_cons_of_mem _ hq))]
      simp [hxk]

theorem lookupCount_eq_of_mem_nodup {α : Type} [DecidableEq α] (x : α) (n : Nat)
    (l : List (α × Nat)) (hmem : (x, n) ∈ l)
    (hnd : (l.map Prod.fst).Nodup) : lookupCount x l = n := by
  induction l with
  | nil => simp at hmem
  | cons p rest ih =>
    obtain ⟨k, m⟩ := p
    rcases List.mem_cons.mp hmem with h1 | h1
    · injection h1 with hk hn
      subst hk
      subst hn
      simp [lookupCount]
    · have hk : ¬ k = x := by
        intro hkx
        subst hkx
        have : k ∈ rest.map Prod.fst :=
          List.mem_map.mpr ⟨(k, n), h1, rfl⟩
        exact (List.nodup_cons.mp hnd).1 this
      simp only [lookupCount, if_neg hk]
      exact ih h1 (List.nodup_cons.mp hnd).2

end Logs

namespace Logs

theorem scanLine_errs (st : ScanState) (raw : Chars) (msg : Chars) :
    lookupCount msg (scanLine st raw).errorMessages =
      lookupCount msg st.errorMessages +
      (if extractErrMsg raw = some msg then 1 else 0) := by
  by_cases hb : trimChars raw = []
  · simp [scanLine, extractErrMsg, hb]
  · cases hp : ParseLine (trimChars raw) with
    | none => simp [scanLine, extractErrMsg, hb, hp]
    | some entry =>
      by_cases he : entry.level = LogLevel.ERROR
      · simp only [scanLine, extractErrMsg, if_neg hb, hp, he, if_true]
        rw [lookupCount_bumpCount]
        congr 1
        by_cases hm : entry.message = msg
        · simp [hm]
        · have hmm : ¬ msg = entry.message := fun h => hm h.symm
          simp [hm, hmm]
      · simp [scanLine, extractErrMsg, hb, hp, he]

theorem scanLine_errs_pos (st : ScanState) (raw : Chars)
    (h : ∀ p ∈ st.errorMessages, 0 < p.2) :
    ∀ p ∈ (scanLine st raw).errorMessages, 0 < p.2 := by
  by_cases hb : trimChars raw = []
  · simpa [scanLine, hb] using h
  · cases hp : ParseLine (trimChars raw) with
    | none => simpa [scanLine, hb, hp] using h
    | some entry =>
      by_cases he : entry.level = LogLevel.ERROR
      · simp only [scanLine, if_neg hb, hp, he, if_true]
        exact bumpCount_pos _ _ h
      · simpa [scanLine, hb, hp, he] using h

theorem scanLine_errs_nodup (st : ScanState) (raw : Chars)
    (h : (st.errorMessages.map Prod.fst).Nodup) :
    (((scanLine st raw).errorMessages).map Prod.fst).Nodup := by
  by_cases hb : trimChars raw = []
  · simpa [scanLine, hb] using h
  · cases hp : ParseLine (trimChars raw) with
    | none => simpa [scanLine, hb, hp] using h
    | some entry =>
      by_cases he : entry.level = LogLevel.ERROR
      · simp only [scanLine, if_neg hb, hp, he, if_true]
        exact keys_bumpCount_nodup _ _ h
      · simpa [scanLine, hb, hp, he] using h

theorem foldl_scanLine_errs (lines : List Chars) : ∀ (st : ScanState) (msg : Chars),
    lookupCount msg (lines.foldl scanLine st).errorMessages =
      lookupCount msg st.errorMessages + errCount msg lines := by
  induction lines with
  | nil => intro st msg; simp [errCount]
  | cons raw rest ih =>
    intro st msg
    rw [List.foldl_cons, ih, scanLine_errs]
    have hcnt : errCount msg (raw :: rest) =
        (if extractErrMsg raw = some msg then 1 else 0) + errCount msg rest := by
      unfold errCount
      rw [List.filterMap_cons]
      cases hx : extractErrMsg raw with
      | none => simp
      | some mm =>
        by_cases hmm : mm = msg
        · subst hmm
          simp [List.count_cons]
          omega
        · have hmm2 : ¬ (some mm = some msg) := by simpa using hmm
          simp [List.count_cons, hmm, hmm2]
    rw [hcnt]
    omega

theorem foldl_scanLine_errs_pos (lines : List Chars) : ∀ st : ScanState,
    (∀ p ∈ st.errorMessages, 0 < p.2) →
    ∀ p ∈ (lines.foldl scanLine st).errorMessages, 0 < p.2 := by
  induction lines with
  | nil => intro st h; exact h
  | cons raw rest ih =>
    intro st h
    exact ih _ (scanLine_errs_pos st raw h)

theorem foldl_scanLine_errs_nodup (lines : List Chars) : ∀ st : ScanState,
    (st.errorMessages.map Prod.fst).Nodup →
    (((lines.foldl scanLine st).errorMessages).map Prod.fst).Nodup := by
  induction lines with
  | nil => intro st h; exact h
  | cons raw rest ih =>
    intro st h
    exact ih _ (scanLine_errs_nodup st raw h)

theorem insertByCountDesc_perm (e : ErrorFrequency) (l : List ErrorFrequency) :
    (insertByCountDesc e l).Perm (e :: l) := by
  induction l with
  | nil => exact List.Perm.refl _
  | cons f rest ih =>
    unfold insertByCountDesc
    by_cases h : f.count < e.count
    · rw [if_pos h]
    · rw [if_neg h]
      exact (ih.cons f).trans (List.Perm.swap e f rest)

theorem sortByCountDesc_perm (l : List ErrorFrequency) :
    (sortByCountDesc l).Perm l := by
  induction l with
  | nil => exact List.Perm.refl _
  | cons e rest ih =>
    exact (insertByCountDesc_perm e (sortByCountDesc rest)).trans (ih.cons e)

theorem insertByCountDesc_sorted (e : ErrorFrequency) (l : List ErrorFrequency)
    (h : List.Pairwise (fun a b => b.count ≤ a.count) l) :
    List.Pairwise (fun a b => b.count ≤ a.count) (insertByCountDesc e l) := by
  induction l with
  | nil => simp [insertByCountDesc]
  | cons f rest ih =>
    obtain ⟨hhead, htail⟩ := List.pairwise_cons.mp h
    unfold insertByCountDesc
    by_cases hc : f.count < e.count
    · rw [if_pos hc]
      refine List.pairwise_cons.mpr ⟨?_, h⟩
      intro x hx
      rcases List.mem_cons.mp hx with h1 | h1
      · subst h1
        exact Nat.le_of_lt hc
      · exact Nat.le_trans (hhead x h1) (Nat.le_of_lt hc)
    · rw [if_neg hc]
      refine List.pairwise_cons.mpr ⟨?_, ih htail⟩
      intro x hx
      rcases List.mem_cons.mp ((insertByCountDesc_perm e rest).mem_iff.mp hx)
        with h1 | h1
      · subst h1
        exact Nat.le_of_not_lt hc
      · exact hhead x h1

theorem sortByCountDesc_sorted (l : List ErrorFrequency) :
    List.Pairwise (fun a b => b.count ≤ a.count) (sortByCountDesc l) := by
  induction l with
  | nil => exact List.Pairwise.nil
  | cons e rest ih => exact insertByCountDesc_sorted e _ ih

theorem getTopErrors_pairwise (errs : List (Chars × Nat)) (topN : Nat) :
    List.Pairwise (fun a b => b.count ≤ a.count) (getTopErrors errs topN) := by
  unfold getTopErrors
  by_cases h : (sortByCountDesc (errs.map (fun p => ErrorFrequency.mk p.1 p.2))).length > topN
  · rw [if_pos h]
    exact (sortByCountDesc_sorted _).sublist (List.take_sublist _ _)
  · rw [if_neg h]
    exact sortByCountDesc_sorted _

theorem getTopErrors_length (errs : List (Chars × Nat)) (topN : Nat) :
    (getTopErrors errs topN).length = min topN errs.length := by
  unfold getTopErrors
  have hlen : (sortByCountDesc (errs.map (fun p => ErrorFrequency.mk p.1 p.2))).length =
      errs.length := by
    rw [(sortByCountDesc_perm _).length_eq, List.length_map]
  by_cases h : (sortByCountDesc (errs.map (fun p => ErrorFrequency.mk p.1 p.2))).length > topN
  · rw [if_pos h, List.length_take, hlen]
  · rw [if_neg h, hlen]
    rw [hlen] at h
    omega

theorem getTopErrors_mem (errs : List (Chars × Nat)) (topN : Nat)
    (e : ErrorFrequency) (he : e ∈ getTopErrors errs topN) :
    (e.message, e.count) ∈ errs := by
  unfold getTopErrors at he
  have hmem : e ∈ sortByCountDesc (errs.map (fun p => ErrorFrequency.mk p.1 p.2)) := by
    by_cases h : (sortByCountDesc (errs.map (fun p => ErrorFrequency.mk p.1 p.2))).length > topN
    · rw [if_pos h] at he
      exact List.take_subset _ _ he
    · rw [if_neg h] at he
      exact he
  have hmem2 : e ∈ errs.map (fun p => ErrorFrequency.mk p.1 p.2) :=
    (sortByCountDesc_perm _).mem_iff.mp hmem
  obtain ⟨p, hp, hpe⟩ := List.mem_map.mp hmem2
  rw [← hpe]
  exact hp

end Logs

namespace Logs

/-- C7: for every input, `top_errors` has exactly
`min 5 (number of distinct ERROR messages)` entries, each entry counts the
frequency of its exact message among the ERROR lines, and the list is ordered
by count descending (tie order unspecified). -/
theorem getTopErrors_spec (lines : List Chars) :
    (analyzeLines lines).topErrors.length = min 5 (distinctErrorMessages lines) ∧
    List.Pairwise (fun a b => b.count ≤ a.count) (analyzeLines lines).topErrors ∧
    (∀ e ∈ (analyzeLines lines).topErrors, e.count = errCount e.message lines) := by
  have hpos : ∀ p ∈ (lines.foldl scanLine
      { levelCounts := [], totalEntries := 0, errorMessages := [] }).errorMessages,
      0 < p.2 :=
    foldl_scanLine_errs_pos lines _ (by simp)
  have hnd : (((lines.foldl scanLine
      { levelCounts := [], totalEntries := 0, errorMessages := [] }).errorMessages).map
      Prod.fst).Nodup :=
    foldl_scanLine_errs_nodup lines _ (by simp)
  have hlook : ∀ msg, lookupCount msg (lines.foldl scanLine
      { levelCounts := [], totalEntries := 0, errorMessages := [] }).errorMessages =
      errCount msg lines := by
    intro msg
    rw [foldl_scanLine_errs]
    simp [lookupCount]
  have hmemiff : ∀ msg, msg ∈ ((lines.foldl scanLine
      { levelCounts := [], totalEntries := 0, errorMessages := [] }).errorMessages).map
      Prod.fst ↔ msg ∈ (lines.filterMap extractErrMsg).dedup := by
    intro msg
    rw [mem_keys_iff_lookupCount_ne_zero msg _ hpos, hlook, List.mem_dedup]
    unfold errCount
    rw [Ne, List.count_eq_zero, not_not]
  have hlen : ((lines.foldl scanLine
      { levelCounts := [], totalEntries := 0, errorMessages := [] }).errorMessages).length =
      distinctErrorMessages lines := by
    have hperm := (List.perm_ext_iff_of_nodup hnd
      (List.nodup_dedup _)).mpr hmemiff
    have hlength := hperm.length_eq
    rw [List.length_map] at hlength
    unfold distinctErrorMessages
    exact hlength
  refine ⟨?_, ?_, ?_⟩
  · show (getTopErrors (lines.foldl scanLine
      { levelCounts := [], totalEntries := 0, errorMessages := [] }).errorMessages
        5).length = min 5 (distinctErrorMessages lines)
    rw [getTopErrors_length, hlen]
  · exact getTopErrors_pairwise _ 5
  · intro e he
    have hmem := getTopErrors_mem _ 5 e he
    have hl := lookupCount_eq_of_mem_nodup e.message e.count _ hmem hnd
    rw [hlook] at hl
    exact hl.symm

/-- C8: analysis fails exactly when the file cannot be opened or read, and
then with the file-access error kind; any readable file yields statistics
without error, and a readable file with no matching line yields empty counts,
empty top errors and zero total entries. -/
theorem ParseLogFile_spec (file : Option (List Chars)) (lines : List Chars)
    (hquiet : ∀ raw ∈ lines, ParseLine (trimChars raw) = none ∨ trimChars raw = []) :
    ((∃ e, ParseLogFile file = .error e) ↔ file = none) ∧
    ParseLogFile none = Except.error FileError.fileAccessError ∧
    ParseLogFile (some lines) =
      .ok { levelCounts := [], topErrors := [], totalEntries := 0 } := by
  have hfold : ∀ (ls : List Chars),
      (∀ raw ∈ ls, ParseLine (trimChars raw) = none ∨ trimChars raw = []) →
      ∀ st : ScanState, ls.foldl scanLine st = st := by
    intro ls
    induction ls with
    | nil => intro _ st; rfl
    | cons raw rest ih =>
      intro hq st
      rw [List.foldl_cons, scanLine_skip st raw (hq raw (List.mem_cons_self _ _))]
      exact ih (fun r hr => hq r (List.mem_cons_of_mem _ hr)) st
  refine ⟨?_, rfl, ?_⟩
  · cases file with
    | none =>
      simp only [ParseLogFile]
      simp
      exact ⟨FileError.fileAccessError, trivial⟩
    | some l => simp [ParseLogFile]
  · show Except.ok (analyzeLines lines) =
      Except.ok { levelCounts := [], topErrors := [], totalEntries := 0 }
    simp only [analyzeLines, hfold lines hquiet]
    rfl

/-- Witness for C8: a readable one-line file with no recognizable level tag
yields the empty statistics without error. -/
theorem ParseLogFile_spec_witness :
    ParseLogFile (some ["no level here".toList]) =
      .ok { levelCounts := [], topErrors := [], totalEntries := 0 } :=
  (ParseLogFile_spec (some ["no level here".toList]) ["no level here".toList]
    (by decide)).2.2

end Logs
